import Mathlib

set_option linter.unnecessarySeqFocus false

/-!
A shallow embedding of the mortal-coil game engine found in
`src/server/mortal-coil.js`, together with theorems settling the
specification's claims about it.

The server holds one mutable `gameState` object; here every operation takes
the state explicitly and returns the next state together with the value the
source returns to the request layer, plus a flag recording whether
`broadcastState()` (the state-changed notification) ran.  The source's
unbounded `while (true)` slide loop is embedded with an explicit fuel
argument; the fuel used at the call site (`countUnvisited board + 1`) is
proved sufficient: the loop always stops because the step test fails, never
because fuel runs out (see `slideAux_stepFree`).
-/

namespace MortalCoil

/-- A board cell, mirroring the objects built in `parseBoard`
(`{ blocked, visited }`). -/
structure Cell where
  blocked : Bool
  visited : Bool
deriving DecidableEq

/-- The board is stored as rows of cells, indexed `board[y][x]`. -/
abbrev Board := List (List Cell)

/-- The server's single mutable `gameState` object. -/
structure GameState where
  levelId : Int
  board : Board
  width : Nat
  height : Nat
  playerX : Int
  playerY : Int
  started : Bool
  finished : Bool
  won : Bool
  visitedCount : Nat
  totalCells : Nat
deriving DecidableEq

/-- Cell returned for an index outside the stored board.  It acts as a wall
(`blocked`, `visited`); the source only indexes the board after its bounds
checks succeed, so on the well-formed boards built by `parseBoard` this
default is never read. -/
def outsideCell : Cell := ⟨true, true⟩

/-- Read `board[y][x]` with natural-number indices. -/
def getCellN (b : Board) (x y : Nat) : Cell := (b.getD y []).getD x outsideCell

/-- Read `board[newY][newX]` as the source does after its bounds checks
(both coordinates are nonnegative there). -/
def getCell (b : Board) (x y : Int) : Cell := getCellN b x.toNat y.toNat

/-- Set `visited := true` on index `x` of a row (`cell.visited = true`). -/
def setRowVisited : List Cell → Nat → List Cell
  | [], _ => []
  | c :: cs, 0 => ⟨c.blocked, true⟩ :: cs
  | c :: cs, x + 1 => c :: setRowVisited cs x

/-- Set `visited := true` on `board[y][x]`. -/
def setVisitedN : Board → Nat → Nat → Board
  | [], _, _ => []
  | r :: rs, x, 0 => setRowVisited r x :: rs
  | r :: rs, x, y + 1 => r :: setVisitedN rs x y

/-- Set `visited := true` at the (nonnegative) coordinates the source uses
after its bounds checks. -/
def setVisited (b : Board) (x y : Int) : Board := setVisitedN b x.toNat y.toNat

/-- Number of cells of a row with `blocked = false`. -/
def rowPlayable (r : List Cell) : Nat := r.countP fun c => !c.blocked

/-- Number of cells of a row with `blocked = false` and `visited = true`. -/
def rowVisitedPlayable (r : List Cell) : Nat := r.countP fun c => !c.blocked && c.visited

/-- Number of cells of a row with `visited = false`. -/
def rowUnvisited (r : List Cell) : Nat := r.countP fun c => !c.visited

/-- `countPlayableCells` of the source: the cells with `blocked = false`. -/
def countPlayableCells (b : Board) : Nat := (b.map rowPlayable).sum

/-- Count of non-blocked visited cells of the board. -/
def countVisitedPlayable (b : Board) : Nat := (b.map rowVisitedPlayable).sum

/-- Count of unvisited cells of the board (used as slide-loop fuel). -/
def countUnvisited (b : Board) : Nat := (b.map rowUnvisited).sum

/-- Character of `boardStr` at linear index `i`; the source reads
`boardStr[i]`, whose out-of-range value `undefined` compares unequal to
`'X'`, which the blank default models. -/
def boardChar (boardStr : String) (i : Nat) : Char := boardStr.toList.getD i ' '

/-- `parseBoard` of the source: row-major parse of the level string, where
`'X'` is blocked and blocked cells count as visited. -/
def parseBoard (boardStr : String) (width height : Nat) : Board :=
  (List.range height).map fun y =>
    (List.range width).map fun x =>
      ⟨boardChar boardStr (y * width + x) == 'X',
       boardChar boardStr (y * width + x) == 'X'⟩

/-- One entry of the level catalog `mortal-coil-levels.json`. -/
structure LevelDef where
  width : Nat
  height : Nat
  boardStr : String
deriving DecidableEq

/-- The level catalog `levels`, as a lookup from level id. -/
def Catalog : Type := Int → Option LevelDef

/-- `loadLevel` of the source: returns the next state and the boolean the
function returns (`false` exactly when the id is absent, in which case the
state is untouched). -/
def loadLevel (levels : Catalog) (levelId : Int) (s : GameState) : GameState × Bool :=
  match levels levelId with
  | none => (s, false)
  | some level =>
    let board := parseBoard level.boardStr level.width level.height
    ({ levelId := levelId
       board := board
       width := level.width
       height := level.height
       playerX := -1
       playerY := -1
       started := false
       finished := false
       won := false
       visitedCount := 0
       totalCells := countPlayableCells board }, true)

/-- Failure cases of `startGame`, one per message string of the source. -/
inductive StartError where
  | alreadyStarted
  | outOfBounds
  | blockedCell
deriving DecidableEq

/-- The message strings of the source's `startGame` failure results. -/
def StartError.message : StartError → String
  | .alreadyStarted => "Game already started"
  | .outOfBounds => "Invalid start position"
  | .blockedCell => "Cannot start on a blocked cell"

/-- Failure cases of `executeMove`, one per message string of the source. -/
inductive MoveError where
  | notActive
  | invalidDirection
  | noMovement
deriving DecidableEq

/-- The message strings of the source's `executeMove` failure results. -/
def MoveError.message : MoveError → String
  | .notActive => "Game not started or already finished"
  | .invalidDirection => "Invalid direction. Use: up, down, left, right"
  | .noMovement => "Cannot move in that direction"

/-- The fields of the source's `{ success: true, ... }` move result. -/
structure MoveSuccess where
  finished : Bool
  won : Bool
  playerX : Int
  playerY : Int
  visitedCount : Nat
  totalCells : Nat
deriving DecidableEq

/-- Result value `executeMove` returns to the request layer. -/
inductive MoveRes where
  | failure (e : MoveError)
  | success (v : MoveSuccess)
deriving DecidableEq

/-- Whether a move result is the success case. -/
def MoveRes.ok : MoveRes → Bool
  | .failure _ => false
  | .success _ => true

/-- Result value `startGame` returns to the request layer. -/
inductive StartRes where
  | failure (e : StartError)
  | success
deriving DecidableEq

/-- Whether a start result is the success case. -/
def StartRes.ok : StartRes → Bool
  | .failure _ => false
  | .success => true

/-- Outcome of `executeMove`: next state, whether `broadcastState` ran, and
the returned result value. -/
structure MoveOut where
  state : GameState
  notified : Bool
  res : MoveRes
deriving DecidableEq

/-- Outcome of `startGame`: next state, whether `broadcastState` ran, and
the returned result value. -/
structure StartOut where
  state : GameState
  notified : Bool
  res : StartRes
deriving DecidableEq

/-- The source's two direction lookup objects, combined: `dx` and `dy` are
defined on exactly the same four keys. -/
def dirDelta (direction : String) : Option (Int × Int) :=
  if direction = "up" then some (0, -1)
  else if direction = "down" then some (0, 1)
  else if direction = "left" then some (-1, 0)
  else if direction = "right" then some (1, 0)
  else none

/-- `isValidMove` of the source: guarded single-step test from the current
player position. -/
def isValidMove (direction : String) (s : GameState) : Bool :=
  if s.started = false ∨ s.finished = true then false
  else
    match dirDelta direction with
    | none => false
    | some (dx, dy) =>
      let newX := s.playerX + dx
      let newY := s.playerY + dy
      if newX < 0 ∨ (s.width : Int) ≤ newX ∨ newY < 0 ∨ (s.height : Int) ≤ newY then false
      else
        !(getCell s.board newX newY).blocked && !(getCell s.board newX newY).visited

/-- The unguarded single-step test: the target one step in direction
`(dx, dy)` is in bounds, not blocked and not visited.  This is the test the
slide loop applies before each step, and the body of `isValidMove`. -/
def stepFree (s : GameState) (dx dy : Int) : Bool :=
  let newX := s.playerX + dx
  let newY := s.playerY + dy
  if newX < 0 ∨ (s.width : Int) ≤ newX ∨ newY < 0 ∨ (s.height : Int) ≤ newY then false
  else
    !(getCell s.board newX newY).blocked && !(getCell s.board newX newY).visited

/-- Modelled from the spec: the internal predicate `canStepTo(direction)` —
true iff the single step from the current player position in that direction
lands in bounds, on a non-blocked, non-visited cell. -/
def canStepTo (direction : String) (s : GameState) : Bool :=
  match dirDelta direction with
  | none => false
  | some (dx, dy) => stepFree s dx dy

/-- The `while (true)` slide loop of `executeMove`, with explicit fuel.
Each iteration computes the target cell, stops (without entering) if it is
out of bounds, blocked or visited, and otherwise enters it: position
updated, cell marked visited, `visitedCount` incremented, `moved` set. -/
def slideAux (dx dy : Int) : Nat → GameState → Bool → GameState × Bool
  | 0, s, moved => (s, moved)
  | fuel + 1, s, moved =>
    let newX := s.playerX + dx
    let newY := s.playerY + dy
    if newX < 0 ∨ (s.width : Int) ≤ newX ∨ newY < 0 ∨ (s.height : Int) ≤ newY then
      (s, moved)
    else if (getCell s.board newX newY).blocked = true ∨
            (getCell s.board newX newY).visited = true then
      (s, moved)
    else
      slideAux dx dy fuel
        { s with playerX := newX
                 playerY := newY
                 board := setVisited s.board newX newY
                 visitedCount := s.visitedCount + 1 } true

/-- The win check of `executeMove`: after a move, full coverage sets
`finished` and `won`. -/
def applyWin (s : GameState) : GameState :=
  if s.visitedCount = s.totalCells then { s with finished := true, won := true } else s

/-- The stuck check of `executeMove`: if no direction passes `isValidMove`
and the game is not won, set `finished` without `won`. -/
def applyStuck (s : GameState) : GameState :=
  let canMove := ["up", "down", "left", "right"].any fun dir => isValidMove dir s
  if !canMove && !s.won then { s with finished := true, won := false } else s

/-- `executeMove` of the source.  The fuel `countUnvisited s.board + 1`
given to the slide loop is proved sufficient (`slideAux_stepFree`): the
loop stops on the step test, exactly as the source's unbounded loop. -/
def executeMove (direction : String) (s : GameState) : MoveOut :=
  if s.started = false ∨ s.finished = true then
    ⟨s, false, .failure .notActive⟩
  else
    match dirDelta direction with
    | none => ⟨s, false, .failure .invalidDirection⟩
    | some (dx, dy) =>
      let slid := slideAux dx dy (countUnvisited s.board + 1) s false
      if slid.2 = false then
        ⟨slid.1, false, .failure .noMovement⟩
      else
        let s3 := applyStuck (applyWin slid.1)
        ⟨s3, true,
         .success ⟨s3.finished, s3.won, s3.playerX, s3.playerY, s3.visitedCount, s3.totalCells⟩⟩

/-- `startGame` of the source. -/
def startGame (x y : Int) (s : GameState) : StartOut :=
  if s.started = true then ⟨s, false, .failure .alreadyStarted⟩
  else if x < 0 ∨ (s.width : Int) ≤ x ∨ y < 0 ∨ (s.height : Int) ≤ y then
    ⟨s, false, .failure .outOfBounds⟩
  else if (getCell s.board x y).blocked = true then ⟨s, false, .failure .blockedCell⟩
  else
    ⟨{ s with playerX := x
              playerY := y
              started := true
              board := setVisited s.board x y
              visitedCount := 1 }, true, .success⟩

/-- The `/api/reset` route: `loadLevel(gameState.levelId)` followed by a
broadcast, ignoring the returned flag. -/
def resetLevel (levels : Catalog) (s : GameState) : GameState :=
  (loadLevel levels s.levelId s).1

/-- The initial `gameState` object of the server. -/
def gameState0 : GameState :=
  { levelId := 0, board := [], width := 0, height := 0, playerX := -1, playerY := -1,
    started := false, finished := false, won := false, visitedCount := 0, totalCells := 0 }

/-- A player-facing mutating request issued after a level is loaded. -/
inductive Op where
  | start (x y : Int)
  | move (direction : String)

/-- The state after handling one request. -/
def applyOp (s : GameState) : Op → GameState
  | .start x y => (startGame x y s).state
  | .move d => (executeMove d s).state

/-- The state after handling a sequence of requests. -/
def applyOps (s : GameState) : List Op → GameState
  | [] => s
  | op :: ops => applyOps (applyOp s op) ops

/-- A small concrete catalog used to instantiate theorems on closed
inputs (the 1×3 boards are the spec's own scenarios). -/
def demoLevels : Catalog := fun id =>
  if id = 0 then some ⟨3, 1, "..."⟩
  else if id = 1 then some ⟨3, 1, ".X."⟩
  else if id = 2 then some ⟨1, 1, "."⟩
  else if id = 3 then some ⟨4, 1, "..X."⟩
  else none

/-- The 1×3 board `"..."` freshly loaded. -/
def demoLoaded : GameState := (loadLevel demoLevels 0 gameState0).1

/-- The 1×3 board `"..."` started at `(0, 0)`. -/
def demoStarted : GameState := (startGame 0 0 demoLoaded).state

/-- The won state after sliding right across the 1×3 board `"..."`. -/
def demoWon : GameState := (executeMove "right" demoStarted).state

/-- The 1×3 board `".X."` freshly loaded. -/
def demoLoadedWall : GameState := (loadLevel demoLevels 1 gameState0).1

/-- The 1×3 board `".X."` started at `(0, 0)`. -/
def demoStartedWall : GameState := (startGame 0 0 demoLoadedWall).state

/-- The 1×1 board `"."` freshly loaded. -/
def demoTiny : GameState := (loadLevel demoLevels 2 gameState0).1

/-- The 1×1 board `"."` started at `(0, 0)`. -/
def demoTinyStarted : GameState := (startGame 0 0 demoTiny).state

/-- The 1×4 board `"..X."` freshly loaded. -/
def demoLoadedFour : GameState := (loadLevel demoLevels 3 gameState0).1

/-- The 1×4 board `"..X."` started at `(1, 0)`; sliding left from here
gets stuck with the board incomplete. -/
def demoStartedFour : GameState := (startGame 1 0 demoLoadedFour).state

/-- The state the slide loop enters when the step test passes. -/
def slideStep (s : GameState) (dx dy : Int) : GameState :=
  { s with playerX := s.playerX + dx
           playerY := s.playerY + dy
           board := setVisited s.board (s.playerX + dx) (s.playerY + dy)
           visitedCount := s.visitedCount + 1 }

/-- Modelled from the spec's slide-algorithm sentence: repeatedly step one
cell in the direction's unit vector from the current position; if the
target cell is out of bounds, blocked or already visited, stop without
entering it; otherwise enter it — update the position, mark it visited,
increment the visited count — and continue.  It carries only the data the
spec mentions (board, position, visited count).  The fuel argument mirrors
the embedding of the source's loop; `slideAux_stepFree` shows the fuel used
at the call site never runs out. -/
def slideSpec (dx dy : Int) (w h : Nat) :
    Nat → Board → Int → Int → Nat → Board × Int × Int × Nat
  | 0, b, x, y, vc => (b, x, y, vc)
  | fuel + 1, b, x, y, vc =>
    if x + dx < 0 ∨ (w : Int) ≤ x + dx ∨ y + dy < 0 ∨ (h : Int) ≤ y + dy then
      (b, x, y, vc)
    else if (getCell b (x + dx) (y + dy)).blocked = true ∨
            (getCell b (x + dx) (y + dy)).visited = true then
      (b, x, y, vc)
    else slideSpec dx dy w h fuel (setVisited b (x + dx) (y + dy)) (x + dx) (y + dy) (vc + 1)

/-- The invariant driving C10: on a level with exactly one playable cell,
the win flag can never be raised. -/
def OneCellInv (s : GameState) : Prop :=
  s.totalCells = 1 ∧ countPlayableCells s.board = 1 ∧
  s.visitedCount = countVisitedPlayable s.board ∧
  s.won = false ∧ s.finished = false ∧
  (s.started = false → s.visitedCount = 0) ∧
  (s.started = true → s.visitedCount = 1)

/-! ### Counting lemmas about rows and boards -/

theorem rowPlayable_cons (c : Cell) (r : List Cell) :
    rowPlayable (c :: r) = (if c.blocked = false then 1 else 0) + rowPlayable r := by
  simp [rowPlayable, List.countP_cons]
  cases c.blocked <;> simp <;> omega

theorem rowVisitedPlayable_cons (c : Cell) (r : List Cell) :
    rowVisitedPlayable (c :: r) =
      (if c.blocked = false ∧ c.visited = true then 1 else 0) + rowVisitedPlayable r := by
  simp [rowVisitedPlayable, List.countP_cons]
  cases hb : c.blocked <;> cases hv : c.visited <;> simp <;> omega

theorem rowUnvisited_cons (c : Cell) (r : List Cell) :
    rowUnvisited (c :: r) = (if c.visited = false then 1 else 0) + rowUnvisited r := by
  simp [rowUnvisited, List.countP_cons]
  cases c.visited <;> simp <;> omega

theorem rowPlayable_setRowVisited (r : List Cell) :
    ∀ x, rowPlayable (setRowVisited r x) = rowPlayable r := by
  induction r with
  | nil => intro x; rfl
  | cons c cs ih =>
    intro x
    cases x with
    | zero => simp [setRowVisited, rowPlayable_cons]
    | succ n => simp [setRowVisited, rowPlayable_cons, ih n]

theorem rowVisitedPlayable_setRowVisited (r : List Cell) :
    ∀ x, (r.getD x outsideCell).blocked = false → (r.getD x outsideCell).visited = false →
      rowVisitedPlayable (setRowVisited r x) = rowVisitedPlayable r + 1 := by
  induction r with
  | nil => intro x hb _; simp [outsideCell] at hb
  | cons c cs ih =>
    intro x hb hv
    cases x with
    | zero =>
      rw [List.getD_cons_zero] at hb hv
      simp [setRowVisited, rowVisitedPlayable_cons, hb, hv]
      omega
    | succ n =>
      rw [List.getD_cons_succ] at hb hv
      simp [setRowVisited, rowVisitedPlayable_cons, ih n hb hv]
      omega

theorem rowUnvisited_setRowVisited (r : List Cell) :
    ∀ x, (r.getD x outsideCell).visited = false →
      rowUnvisited (setRowVisited r x) + 1 = rowUnvisited r := by
  induction r with
  | nil => intro x hv; simp [outsideCell] at hv
  | cons c cs ih =>
    intro x hv
    cases x with
    | zero =>
      rw [List.getD_cons_zero] at hv
      simp [setRowVisited, rowUnvisited_cons, hv]
      omega
    | succ n =>
      rw [List.getD_cons_succ] at hv
      have h2 := ih n hv
      simp [setRowVisited, rowUnvisited_cons]
      omega

theorem getCellN_cons_succ (r : List Cell) (rs : Board) (x y : Nat) :
    getCellN (r :: rs) x (y + 1) = getCellN rs x y := rfl

theorem getCellN_cons_zero (r : List Cell) (rs : Board) (x : Nat) :
    getCellN (r :: rs) x 0 = r.getD x outsideCell := rfl

theorem countPlayableCells_setVisitedN (b : Board) :
    ∀ x y, countPlayableCells (setVisitedN b x y) = countPlayableCells b := by
  induction b with
  | nil => intro x y; rfl
  | cons r rs ih =>
    intro x y
    cases y with
    | zero => simp [setVisitedN, countPlayableCells, rowPlayable_setRowVisited]
    | succ n =>
      have := ih x n
      simp [setVisitedN, countPlayableCells] at this ⊢
      omega

theorem countVisitedPlayable_setVisitedN (b : Board) :
    ∀ x y, (getCellN b x y).blocked = false → (getCellN b x y).visited = false →
      countVisitedPlayable (setVisitedN b x y) = countVisitedPlayable b + 1 := by
  induction b with
  | nil => intro x y hb _; simp [getCellN, outsideCell] at hb
  | cons r rs ih =>
    intro x y hb hv
    cases y with
    | zero =>
      rw [getCellN_cons_zero] at hb hv
      simp [setVisitedN, countVisitedPlayable, rowVisitedPlayable_setRowVisited r x hb hv]
      omega
    | succ n =>
      rw [getCellN_cons_succ] at hb hv
      have := ih x n hb hv
      simp [setVisitedN, countVisitedPlayable] at this ⊢
      omega

theorem countUnvisited_setVisitedN (b : Board) :
    ∀ x y, (getCellN b x y).visited = false →
      countUnvisited (setVisitedN b x y) + 1 = countUnvisited b := by
  induction b with
  | nil => intro x y hv; simp [getCellN, outsideCell] at hv
  | cons r rs ih =>
    intro x y hv
    cases y with
    | zero =>
      rw [getCellN_cons_zero] at hv
      simp [setVisitedN, countUnvisited, ← rowUnvisited_setRowVisited r x hv]
      omega
    | succ n =>
      rw [getCellN_cons_succ] at hv
      have := ih x n hv
      simp [setVisitedN, countUnvisited] at this ⊢
      omega

theorem rowVisitedPlayable_le (r : List Cell) : rowVisitedPlayable r ≤ rowPlayable r := by
  induction r with
  | nil => simp [rowVisitedPlayable, rowPlayable]
  | cons c cs ih =>
    rw [rowVisitedPlayable_cons, rowPlayable_cons]
    cases hb : c.blocked <;> cases hv : c.visited <;> simp [hb, hv] <;> omega

theorem countVisitedPlayable_le (b : Board) :
    countVisitedPlayable b ≤ countPlayableCells b := by
  induction b with
  | nil => simp [countVisitedPlayable, countPlayableCells]
  | cons r rs ih =>
    have := rowVisitedPlayable_le r
    simp [countVisitedPlayable, countPlayableCells] at ih ⊢
    omega

theorem row_all_visited (r : List Cell) :
    ∀ x, rowVisitedPlayable r = rowPlayable r → (r.getD x outsideCell).blocked = false →
      (r.getD x outsideCell).visited = true := by
  induction r with
  | nil => intro x _ hb; simp [outsideCell] at hb
  | cons c cs ih =>
    intro x h hb
    rw [rowVisitedPlayable_cons, rowPlayable_cons] at h
    have hle := rowVisitedPlayable_le cs
    cases x with
    | zero =>
      rw [List.getD_cons_zero] at hb ⊢
      by_contra hv
      rw [Bool.not_eq_true] at hv
      rw [hb, hv] at h
      simp at h
      omega
    | succ n =>
      rw [List.getD_cons_succ] at hb ⊢
      refine ih n ?_ hb
      cases hcb : c.blocked <;> cases hcv : c.visited <;> rw [hcb, hcv] at h <;>
        simp at h <;> omega

theorem board_all_visited (b : Board) :
    ∀ x y, countVisitedPlayable b = countPlayableCells b →
      (getCellN b x y).blocked = false → (getCellN b x y).visited = true := by
  induction b with
  | nil => intro x y _ hb; simp [getCellN, outsideCell] at hb
  | cons r rs ih =>
    intro x y h hb
    have h1 := rowVisitedPlayable_le r
    have h2 := countVisitedPlayable_le rs
    simp [countVisitedPlayable, countPlayableCells] at h h2
    cases y with
    | zero =>
      rw [getCellN_cons_zero] at hb ⊢
      exact row_all_visited r x (by omega) hb
    | succ n =>
      rw [getCellN_cons_succ] at hb ⊢
      refine ih x n ?_ hb
      simp [countVisitedPlayable, countPlayableCells]
      omega

theorem row_none_visited (r : List Cell) :
    ∀ x, rowVisitedPlayable r = 0 → (r.getD x outsideCell).blocked = false →
      (r.getD x outsideCell).visited = false := by
  induction r with
  | nil => intro x _ hb; simp [outsideCell] at hb
  | cons c cs ih =>
    intro x h hb
    rw [rowVisitedPlayable_cons] at h
    cases x with
    | zero =>
      rw [List.getD_cons_zero] at hb ⊢
      by_contra hv
      rw [Bool.not_eq_false] at hv
      rw [hb, hv] at h
      simp at h
    | succ n =>
      rw [List.getD_cons_succ] at hb ⊢
      refine ih n ?_ hb
      omega

theorem board_none_visited (b : Board) :
    ∀ x y, countVisitedPlayable b = 0 →
      (getCellN b x y).blocked = false → (getCellN b x y).visited = false := by
  induction b with
  | nil => intro x y _ hb; simp [getCellN, outsideCell] at hb
  | cons r rs ih =>
    intro x y h hb
    simp [countVisitedPlayable] at h
    cases y with
    | zero =>
      rw [getCellN_cons_zero] at hb ⊢
      refine row_none_visited r x ?_ hb
      omega
    | succ n =>
      rw [getCellN_cons_succ] at hb ⊢
      refine ih x n ?_ hb
      simp [countVisitedPlayable]
      omega

/-! ### Lemmas about `parseBoard` -/

theorem getD_map_range {α : Type} (f : Nat → α) (d : α) {n m : Nat} (h : m < n) :
    ((List.range n).map f).getD m d = f m := by
  rw [List.getD_eq_getElem _ _ (by simpa using h), List.getElem_map, List.getElem_range]

theorem parseBoard_getCellN (boardStr : String) (w h x y : Nat)
    (hx : x < w) (hy : y < h) :
    getCellN (parseBoard boardStr w h) x y =
      ⟨boardChar boardStr (y * w + x) == 'X', boardChar boardStr (y * w + x) == 'X'⟩ := by
  unfold getCellN parseBoard
  rw [getD_map_range _ _ hy, getD_map_range _ _ hx]

theorem parseBoard_visited_eq_blocked (boardStr : String) (w h x y : Nat) :
    (getCellN (parseBoard boardStr w h) x y).visited =
      (getCellN (parseBoard boardStr w h) x y).blocked := by
  by_cases hy : y < h
  · by_cases hx : x < w
    · rw [parseBoard_getCellN boardStr w h x y hx hy]
    · unfold getCellN parseBoard
      rw [getD_map_range _ _ hy, List.getD_eq_default _ _ (by simpa using Nat.le_of_not_lt hx)]
      rfl
  · have hrow : (parseBoard boardStr w h).getD y [] = [] :=
      List.getD_eq_default _ _ (by simpa [parseBoard] using Nat.le_of_not_lt hy)
    unfold getCellN
    rw [hrow, List.getD_nil]
    rfl

theorem countVisitedPlayable_parseBoard (boardStr : String) (w h : Nat) :
    countVisitedPlayable (parseBoard boardStr w h) = 0 := by
  unfold countVisitedPlayable parseBoard
  rw [List.map_map, List.sum_eq_zero]
  intro c hc
  simp only [List.mem_map] at hc
  obtain ⟨y, _, rfl⟩ := hc
  simp only [Function.comp]
  unfold rowVisitedPlayable
  rw [List.countP_map, List.countP_eq_zero]
  intro x _
  simp only [Function.comp]
  cases hb : boardChar boardStr (y * w + x) == 'X' <;> simp [hb]

/-! ### Lemmas about the slide loop -/

theorem stepFree_eq_false_iff (s : GameState) (dx dy : Int) :
    stepFree s dx dy = false ↔
      ((s.playerX + dx < 0 ∨ (s.width : Int) ≤ s.playerX + dx ∨
        s.playerY + dy < 0 ∨ (s.height : Int) ≤ s.playerY + dy) ∨
       (getCell s.board (s.playerX + dx) (s.playerY + dy)).blocked = true ∨
       (getCell s.board (s.playerX + dx) (s.playerY + dy)).visited = true) := by
  unfold stepFree
  by_cases hb : s.playerX + dx < 0 ∨ (s.width : Int) ≤ s.playerX + dx ∨
      s.playerY + dy < 0 ∨ (s.height : Int) ≤ s.playerY + dy
  · simp [hb]
  · simp only [hb, if_false]
    cases hbl : (getCell s.board (s.playerX + dx) (s.playerY + dy)).blocked <;>
      cases hv : (getCell s.board (s.playerX + dx) (s.playerY + dy)).visited <;>
      simp [hb]

theorem stepFree_eq_true_iff (s : GameState) (dx dy : Int) :
    stepFree s dx dy = true ↔
      (¬(s.playerX + dx < 0 ∨ (s.width : Int) ≤ s.playerX + dx ∨
         s.playerY + dy < 0 ∨ (s.height : Int) ≤ s.playerY + dy) ∧
       (getCell s.board (s.playerX + dx) (s.playerY + dy)).blocked = false ∧
       (getCell s.board (s.playerX + dx) (s.playerY + dy)).visited = false) := by
  rw [← Bool.not_eq_false, stepFree_eq_false_iff]
  simp [not_or]

theorem slideAux_succ (dx dy : Int) (fuel : Nat) (s : GameState) (m : Bool) :
    slideAux dx dy (fuel + 1) s m =
      if s.playerX + dx < 0 ∨ (s.width : Int) ≤ s.playerX + dx ∨
         s.playerY + dy < 0 ∨ (s.height : Int) ≤ s.playerY + dy then (s, m)
      else if (getCell s.board (s.playerX + dx) (s.playerY + dy)).blocked = true ∨
              (getCell s.board (s.playerX + dx) (s.playerY + dy)).visited = true then (s, m)
      else slideAux dx dy fuel (slideStep s dx dy) true := rfl

theorem slideAux_succ_stop (dx dy : Int) (fuel : Nat) (s : GameState) (m : Bool)
    (h : stepFree s dx dy = false) : slideAux dx dy (fuel + 1) s m = (s, m) := by
  rw [stepFree_eq_false_iff] at h
  rw [slideAux_succ]
  by_cases hb : s.playerX + dx < 0 ∨ (s.width : Int) ≤ s.playerX + dx ∨
      s.playerY + dy < 0 ∨ (s.height : Int) ≤ s.playerY + dy
  · rw [if_pos hb]
  · rw [if_neg hb, if_pos]
    tauto

theorem slideAux_break (dx dy : Int) (fuel : Nat) (s : GameState) (m : Bool)
    (h : stepFree s dx dy = false) : slideAux dx dy fuel s m = (s, m) := by
  cases fuel with
  | zero => rfl
  | succ n => exact slideAux_succ_stop dx dy n s m h

theorem slideAux_succ_enter (dx dy : Int) (fuel : Nat) (s : GameState) (m : Bool)
    (h : stepFree s dx dy = true) :
    slideAux dx dy (fuel + 1) s m = slideAux dx dy fuel (slideStep s dx dy) true := by
  rw [stepFree_eq_true_iff] at h
  obtain ⟨hb, hbl, hv⟩ := h
  rw [slideAux_succ, if_neg hb, if_neg (by simp [hbl, hv])]

theorem slideAux_const (dx dy : Int) :
    ∀ (fuel : Nat) (s : GameState) (m : Bool),
      (slideAux dx dy fuel s m).1.levelId = s.levelId ∧
      (slideAux dx dy fuel s m).1.width = s.width ∧
      (slideAux dx dy fuel s m).1.height = s.height ∧
      (slideAux dx dy fuel s m).1.started = s.started ∧
      (slideAux dx dy fuel s m).1.finished = s.finished ∧
      (slideAux dx dy fuel s m).1.won = s.won ∧
      (slideAux dx dy fuel s m).1.totalCells = s.totalCells := by
  intro fuel
  induction fuel with
  | zero => intro s m; exact ⟨rfl, rfl, rfl, rfl, rfl, rfl, rfl⟩
  | succ n ih =>
    intro s m
    by_cases h : stepFree s dx dy = true
    · rw [slideAux_succ_enter dx dy n s m h]
      exact ih (slideStep s dx dy) true
    · rw [slideAux_succ_stop dx dy n s m (by simpa using h)]
      exact ⟨rfl, rfl, rfl, rfl, rfl, rfl, rfl⟩

theorem slideAux_visitedCount_le (dx dy : Int) :
    ∀ (fuel : Nat) (s : GameState) (m : Bool),
      s.visitedCount ≤ (slideAux dx dy fuel s m).1.visitedCount := by
  intro fuel
  induction fuel with
  | zero => intro s m; exact Nat.le_refl _
  | succ n ih =>
    intro s m
    by_cases h : stepFree s dx dy = true
    · rw [slideAux_succ_enter dx dy n s m h]
      have h1 := ih (slideStep s dx dy) true
      have h2 : (slideStep s dx dy).visitedCount = s.visitedCount + 1 := rfl
      omega
    · rw [slideAux_succ_stop dx dy n s m (by simpa using h)]

theorem slideAux_playable (dx dy : Int) :
    ∀ (fuel : Nat) (s : GameState) (m : Bool),
      countPlayableCells (slideAux dx dy fuel s m).1.board = countPlayableCells s.board := by
  intro fuel
  induction fuel with
  | zero => intro s m; rfl
  | succ n ih =>
    intro s m
    by_cases h : stepFree s dx dy = true
    · rw [slideAux_succ_enter dx dy n s m h]
      rw [ih (slideStep s dx dy) true]
      exact countPlayableCells_setVisitedN s.board _ _
    · rw [slideAux_succ_stop dx dy n s m (by simpa using h)]

theorem slideAux_countInv (dx dy : Int) :
    ∀ (fuel : Nat) (s : GameState) (m : Bool),
      s.visitedCount = countVisitedPlayable s.board →
      (slideAux dx dy fuel s m).1.visitedCount =
        countVisitedPlayable (slideAux dx dy fuel s m).1.board := by
  intro fuel
  induction fuel with
  | zero => intro s m h; exact h
  | succ n ih =>
    intro s m hInv
    by_cases h : stepFree s dx dy = true
    · rw [slideAux_succ_enter dx dy n s m h]
      refine ih (slideStep s dx dy) true ?_
      rw [stepFree_eq_true_iff] at h
      obtain ⟨_, hbl, hv⟩ := h
      have hbl2 : (getCellN s.board (s.playerX + dx).toNat (s.playerY + dy).toNat).blocked
          = false := hbl
      have hv2 : (getCellN s.board (s.playerX + dx).toNat (s.playerY + dy).toNat).visited
          = false := hv
      show s.visitedCount + 1 =
        countVisitedPlayable (setVisitedN s.board (s.playerX + dx).toNat (s.playerY + dy).toNat)
      rw [countVisitedPlayable_setVisitedN s.board _ _ hbl2 hv2, hInv]
    · rw [slideAux_succ_stop dx dy n s m (by simpa using h)]
      exact hInv

theorem slideAux_moved_mono (dx dy : Int) :
    ∀ (fuel : Nat) (s : GameState),
      (slideAux dx dy fuel s true).2 = true := by
  intro fuel
  induction fuel with
  | zero => intro s; rfl
  | succ n ih =>
    intro s
    by_cases h : stepFree s dx dy = true
    · rw [slideAux_succ_enter dx dy n s true h]
      exact ih (slideStep s dx dy)
    · rw [slideAux_succ_stop dx dy n s true (by simpa using h)]

theorem slideAux_snd_false (dx dy : Int) :
    ∀ (fuel : Nat) (s : GameState) (m : Bool),
      (slideAux dx dy fuel s m).2 = false → (slideAux dx dy fuel s m).1 = s ∧ m = false := by
  intro fuel
  induction fuel with
  | zero => intro s m h; exact ⟨rfl, h⟩
  | succ n ih =>
    intro s m h
    by_cases hs : stepFree s dx dy = true
    · rw [slideAux_succ_enter dx dy n s m hs] at h
      rw [slideAux_moved_mono dx dy n (slideStep s dx dy)] at h
      exact absurd h (by simp)
    · rw [slideAux_succ_stop dx dy n s m (by simpa using hs)] at h ⊢
      exact ⟨rfl, h⟩

theorem slideAux_strict (dx dy : Int) :
    ∀ (fuel : Nat) (s : GameState),
      (slideAux dx dy fuel s false).2 = true →
      s.visitedCount < (slideAux dx dy fuel s false).1.visitedCount := by
  intro fuel s h
  cases fuel with
  | zero => exact absurd h (by simp [slideAux])
  | succ n =>
    by_cases hs : stepFree s dx dy = true
    · rw [slideAux_succ_enter dx dy n s false hs]
      have h1 := slideAux_visitedCount_le dx dy n (slideStep s dx dy) true
      have h2 : (slideStep s dx dy).visitedCount = s.visitedCount + 1 := rfl
      omega
    · rw [slideAux_succ_stop dx dy n s false (by simpa using hs)] at h
      exact absurd h (by simp)

theorem slideAux_stepFree (dx dy : Int) :
    ∀ (fuel : Nat) (s : GameState) (m : Bool),
      countUnvisited s.board < fuel →
      stepFree (slideAux dx dy fuel s m).1 dx dy = false := by
  intro fuel
  induction fuel with
  | zero => intro s m h; exact absurd h (by omega)
  | succ n ih =>
    intro s m hfuel
    by_cases h : stepFree s dx dy = true
    · rw [slideAux_succ_enter dx dy n s m h]
      refine ih (slideStep s dx dy) true ?_
      rw [stepFree_eq_true_iff] at h
      obtain ⟨_, _, hv⟩ := h
      have hv2 : (getCellN s.board (s.playerX + dx).toNat (s.playerY + dy).toNat).visited
          = false := hv
      have h1 := countUnvisited_setVisitedN s.board
        (s.playerX + dx).toNat (s.playerY + dy).toNat hv2
      show countUnvisited
        (setVisitedN s.board (s.playerX + dx).toNat (s.playerY + dy).toNat) < n
      omega
    · rw [slideAux_succ_stop dx dy n s m (by simpa using h)]
      simpa using h

/-! ### Path lemmas about the engine operations -/

theorem isValidMove_eq_canStepTo (d : String) (s : GameState)
    (hs : s.started = true) (hf : s.finished = false) :
    isValidMove d s = canStepTo d s := by
  unfold isValidMove canStepTo
  rw [hs, hf, if_neg (by simp)]
  rfl

theorem canStepTo_flags (d : String) (s : GameState) (f w : Bool) :
    canStepTo d { s with finished := f, won := w } = canStepTo d s := rfl

theorem applyWin_of_eq (s : GameState) (h : s.visitedCount = s.totalCells) :
    applyWin s = { s with finished := true, won := true } := by
  unfold applyWin
  rw [if_pos h]

theorem applyWin_of_ne (s : GameState) (h : ¬s.visitedCount = s.totalCells) :
    applyWin s = s := by
  unfold applyWin
  rw [if_neg h]

theorem applyStuck_of_won (s : GameState) (h : s.won = true) : applyStuck s = s := by
  unfold applyStuck
  simp [h]

theorem applyStuck_of_canMove (s : GameState)
    (h : (["up", "down", "left", "right"].any fun dir => isValidMove dir s) = true) :
    applyStuck s = s := by
  unfold applyStuck
  simp [h]

theorem applyStuck_of_stuck (s : GameState)
    (h : (["up", "down", "left", "right"].any fun dir => isValidMove dir s) = false)
    (hw : s.won = false) :
    applyStuck s = { s with finished := true, won := false } := by
  unfold applyStuck
  simp [h, hw]

theorem executeMove_notActive (d : String) (s : GameState)
    (h : s.started = false ∨ s.finished = true) :
    executeMove d s = ⟨s, false, .failure .notActive⟩ := by
  unfold executeMove
  rw [if_pos h]

theorem executeMove_invalidDir (d : String) (s : GameState)
    (hs : s.started = true) (hf : s.finished = false) (hd : dirDelta d = none) :
    executeMove d s = ⟨s, false, .failure .invalidDirection⟩ := by
  unfold executeMove
  rw [if_neg (by simp [hs, hf]), hd]

theorem executeMove_slid (d : String) (s : GameState) (dx dy : Int)
    (hs : s.started = true) (hf : s.finished = false) (hd : dirDelta d = some (dx, dy)) :
    executeMove d s =
      (if (slideAux dx dy (countUnvisited s.board + 1) s false).2 = false then
        ⟨(slideAux dx dy (countUnvisited s.board + 1) s false).1, false, .failure .noMovement⟩
      else
        ⟨applyStuck (applyWin (slideAux dx dy (countUnvisited s.board + 1) s false).1), true,
         .success
           ⟨(applyStuck (applyWin (slideAux dx dy (countUnvisited s.board + 1) s false).1)).finished,
            (applyStuck (applyWin (slideAux dx dy (countUnvisited s.board + 1) s false).1)).won,
            (applyStuck (applyWin (slideAux dx dy (countUnvisited s.board + 1) s false).1)).playerX,
            (applyStuck (applyWin (slideAux dx dy (countUnvisited s.board + 1) s false).1)).playerY,
            (applyStuck (applyWin (slideAux dx dy (countUnvisited s.board + 1) s false).1)).visitedCount,
            (applyStuck (applyWin (slideAux dx dy (countUnvisited s.board + 1) s false).1)).totalCells⟩⟩) := by
  unfold executeMove
  rw [if_neg (by simp [hs, hf]), hd]

theorem executeMove_noMovement (d : String) (s : GameState) (dx dy : Int)
    (hs : s.started = true) (hf : s.finished = false) (hd : dirDelta d = some (dx, dy))
    (hstep : stepFree s dx dy = false) :
    executeMove d s = ⟨s, false, .failure .noMovement⟩ := by
  rw [executeMove_slid d s dx dy hs hf hd,
    slideAux_break dx dy (countUnvisited s.board + 1) s false hstep]
  simp

theorem executeMove_moved (d : String) (s : GameState) (dx dy : Int)
    (hs : s.started = true) (hf : s.finished = false) (hd : dirDelta d = some (dx, dy))
    (hm : (slideAux dx dy (countUnvisited s.board + 1) s false).2 = true) :
    (executeMove d s).state =
      applyStuck (applyWin (slideAux dx dy (countUnvisited s.board + 1) s false).1) ∧
    (executeMove d s).notified = true ∧
    (executeMove d s).res.ok = true := by
  rw [executeMove_slid d s dx dy hs hf hd, if_neg (by simp [hm])]
  exact ⟨rfl, rfl, rfl⟩

theorem executeMove_ok_cases (d : String) (s : GameState)
    (hok : (executeMove d s).res.ok = true) :
    s.started = true ∧ s.finished = false ∧
    ∃ dx dy, dirDelta d = some (dx, dy) ∧
      (slideAux dx dy (countUnvisited s.board + 1) s false).2 = true ∧
      (executeMove d s).state =
        applyStuck (applyWin (slideAux dx dy (countUnvisited s.board + 1) s false).1) := by
  by_cases hg : s.started = false ∨ s.finished = true
  · rw [executeMove_notActive d s hg] at hok
    exact absurd hok (by simp [MoveRes.ok])
  · simp only [not_or, Bool.not_eq_false, Bool.not_eq_true] at hg
    obtain ⟨hs, hf⟩ := hg
    refine ⟨hs, hf, ?_⟩
    cases hd : dirDelta d with
    | none =>
      rw [executeMove_invalidDir d s hs hf hd] at hok
      exact absurd hok (by simp [MoveRes.ok])
    | some p =>
      obtain ⟨dx, dy⟩ := p
      refine ⟨dx, dy, rfl, ?_⟩
      by_cases hm : (slideAux dx dy (countUnvisited s.board + 1) s false).2 = true
      · exact ⟨hm, (executeMove_moved d s dx dy hs hf hd hm).1⟩
      · rw [Bool.not_eq_true] at hm
        rw [executeMove_slid d s dx dy hs hf hd, if_pos hm] at hok
        exact absurd hok (by simp [MoveRes.ok])

theorem startGame_already (x y : Int) (s : GameState) (h : s.started = true) :
    startGame x y s = ⟨s, false, .failure .alreadyStarted⟩ := by
  unfold startGame
  rw [if_pos h]

theorem startGame_oob (x y : Int) (s : GameState) (h : s.started = false)
    (hb : x < 0 ∨ (s.width : Int) ≤ x ∨ y < 0 ∨ (s.height : Int) ≤ y) :
    startGame x y s = ⟨s, false, .failure .outOfBounds⟩ := by
  unfold startGame
  rw [if_neg (by simp [h]), if_pos hb]

theorem startGame_blocked (x y : Int) (s : GameState) (h : s.started = false)
    (hb : ¬(x < 0 ∨ (s.width : Int) ≤ x ∨ y < 0 ∨ (s.height : Int) ≤ y))
    (hc : (getCell s.board x y).blocked = true) :
    startGame x y s = ⟨s, false, .failure .blockedCell⟩ := by
  unfold startGame
  rw [if_neg (by simp [h]), if_neg hb, if_pos hc]

theorem startGame_ok (x y : Int) (s : GameState) (h : s.started = false)
    (hb : ¬(x < 0 ∨ (s.width : Int) ≤ x ∨ y < 0 ∨ (s.height : Int) ≤ y))
    (hc : (getCell s.board x y).blocked = false) :
    startGame x y s =
      ⟨{ s with playerX := x
                playerY := y
                started := true
                board := setVisited s.board x y
                visitedCount := 1 }, true, .success⟩ := by
  unfold startGame
  rw [if_neg (by simp [h]), if_neg hb, if_neg (by simp [hc])]

theorem startGame_ok_cases (x y : Int) (s : GameState)
    (hok : (startGame x y s).res.ok = true) :
    s.started = false ∧
    ¬(x < 0 ∨ (s.width : Int) ≤ x ∨ y < 0 ∨ (s.height : Int) ≤ y) ∧
    (getCell s.board x y).blocked = false ∧
    (startGame x y s).state =
      { s with playerX := x
               playerY := y
               started := true
               board := setVisited s.board x y
               visitedCount := 1 } := by
  by_cases h : s.started = true
  · rw [startGame_already x y s h] at hok
    exact absurd hok (by simp [StartRes.ok])
  · rw [Bool.not_eq_true] at h
    by_cases hb : x < 0 ∨ (s.width : Int) ≤ x ∨ y < 0 ∨ (s.height : Int) ≤ y
    · rw [startGame_oob x y s h hb] at hok
      exact absurd hok (by simp [StartRes.ok])
    · by_cases hc : (getCell s.board x y).blocked = true
      · rw [startGame_blocked x y s h hb hc] at hok
        exact absurd hok (by simp [StartRes.ok])
      · rw [Bool.not_eq_true] at hc
        rw [startGame_ok x y s h hb hc]
        exact ⟨h, hb, hc, rfl⟩

/-! ### The spec-side slide algorithm and its correspondence to the loop -/

theorem slideSpec_succ (dx dy : Int) (w h : Nat) (fuel : Nat) (b : Board) (x y : Int)
    (vc : Nat) :
    slideSpec dx dy w h (fuel + 1) b x y vc =
      if x + dx < 0 ∨ (w : Int) ≤ x + dx ∨ y + dy < 0 ∨ (h : Int) ≤ y + dy then
        (b, x, y, vc)
      else if (getCell b (x + dx) (y + dy)).blocked = true ∨
              (getCell b (x + dx) (y + dy)).visited = true then
        (b, x, y, vc)
      else slideSpec dx dy w h fuel (setVisited b (x + dx) (y + dy)) (x + dx) (y + dy)
        (vc + 1) := rfl

theorem slideAux_eq_slideSpec (dx dy : Int) :
    ∀ (fuel : Nat) (s : GameState) (m : Bool),
      (slideAux dx dy fuel s m).1 =
        { s with
          board := (slideSpec dx dy s.width s.height fuel s.board s.playerX s.playerY
            s.visitedCount).1
          playerX := (slideSpec dx dy s.width s.height fuel s.board s.playerX s.playerY
            s.visitedCount).2.1
          playerY := (slideSpec dx dy s.width s.height fuel s.board s.playerX s.playerY
            s.visitedCount).2.2.1
          visitedCount := (slideSpec dx dy s.width s.height fuel s.board s.playerX s.playerY
            s.visitedCount).2.2.2 } := by
  intro fuel
  induction fuel with
  | zero => intro s m; rfl
  | succ n ih =>
    intro s m
    by_cases h : stepFree s dx dy = true
    · rw [slideAux_succ_enter dx dy n s m h, ih (slideStep s dx dy) true]
      rw [stepFree_eq_true_iff] at h
      obtain ⟨hb, hbl, hv⟩ := h
      rw [slideSpec_succ, if_neg hb, if_neg (by simp [hbl, hv])]
      rfl
    · have hstep : stepFree s dx dy = false := by simpa using h
      rw [slideAux_break dx dy (n + 1) s m hstep]
      rw [stepFree_eq_false_iff] at hstep
      rw [slideSpec_succ]
      by_cases hb : s.playerX + dx < 0 ∨ (s.width : Int) ≤ s.playerX + dx ∨
          s.playerY + dy < 0 ∨ (s.height : Int) ≤ s.playerY + dy
      · rw [if_pos hb]
      · rw [if_neg hb, if_pos (by tauto)]

/-! ### Remaining helper lemmas -/

theorem setRowVisited_getD_visited (r : List Cell) :
    ∀ x, x < r.length → ((setRowVisited r x).getD x outsideCell).visited = true := by
  induction r with
  | nil => intro x hx; exact absurd hx (by simp)
  | cons c cs ih =>
    intro x hx
    cases x with
    | zero => rfl
    | succ n =>
      show ((setRowVisited cs n).getD n outsideCell).visited = true
      exact ih n (by simpa using hx)

theorem setRowVisited_length (r : List Cell) :
    ∀ x, (setRowVisited r x).length = r.length := by
  induction r with
  | nil => intro x; rfl
  | cons c cs ih =>
    intro x
    cases x with
    | zero => rfl
    | succ n => simpa [setRowVisited] using ih n

theorem getCellN_setVisitedN_visited (b : Board) :
    ∀ x y, (getCellN b x y).blocked = false →
      (getCellN (setVisitedN b x y) x y).visited = true := by
  induction b with
  | nil => intro x y hb; simp [getCellN, outsideCell] at hb
  | cons r rs ih =>
    intro x y hb
    cases y with
    | zero =>
      rw [getCellN_cons_zero] at hb
      show ((setRowVisited r x).getD x outsideCell).visited = true
      refine setRowVisited_getD_visited r x ?_
      by_contra hx
      rw [List.getD_eq_default _ _ (Nat.le_of_not_lt hx)] at hb
      simp [outsideCell] at hb
    | succ n =>
      rw [getCellN_cons_succ] at hb
      show (getCellN (setVisitedN rs x n) x n).visited = true
      exact ih x n hb

theorem applyWin_sub (s : GameState) :
    (applyWin s).board = s.board ∧ (applyWin s).playerX = s.playerX ∧
    (applyWin s).playerY = s.playerY ∧ (applyWin s).visitedCount = s.visitedCount ∧
    (applyWin s).width = s.width ∧ (applyWin s).height = s.height ∧
    (applyWin s).totalCells = s.totalCells ∧ (applyWin s).started = s.started ∧
    (applyWin s).levelId = s.levelId := by
  unfold applyWin
  split <;> exact ⟨rfl, rfl, rfl, rfl, rfl, rfl, rfl, rfl, rfl⟩

theorem applyStuck_sub (s : GameState) :
    (applyStuck s).board = s.board ∧ (applyStuck s).playerX = s.playerX ∧
    (applyStuck s).playerY = s.playerY ∧ (applyStuck s).visitedCount = s.visitedCount ∧
    (applyStuck s).width = s.width ∧ (applyStuck s).height = s.height ∧
    (applyStuck s).totalCells = s.totalCells ∧ (applyStuck s).started = s.started ∧
    (applyStuck s).levelId = s.levelId := by
  cases hcm : (["up", "down", "left", "right"].any fun dir => isValidMove dir s) with
  | false =>
    by_cases hw : s.won = false
    · rw [applyStuck_of_stuck s hcm hw]
      exact ⟨rfl, rfl, rfl, rfl, rfl, rfl, rfl, rfl, rfl⟩
    · rw [applyStuck_of_won s (by simpa using hw)]
      exact ⟨rfl, rfl, rfl, rfl, rfl, rfl, rfl, rfl, rfl⟩
  | true =>
    rw [applyStuck_of_canMove s hcm]
    exact ⟨rfl, rfl, rfl, rfl, rfl, rfl, rfl, rfl, rfl⟩

theorem canStepTo_applyWin (d : String) (s : GameState) :
    canStepTo d (applyWin s) = canStepTo d s := by
  by_cases h : s.visitedCount = s.totalCells
  · rw [applyWin_of_eq s h]
    exact canStepTo_flags d s true true
  · rw [applyWin_of_ne s h]

theorem canStepTo_applyStuck (d : String) (s : GameState) :
    canStepTo d (applyStuck s) = canStepTo d s := by
  cases hcm : (["up", "down", "left", "right"].any fun dir => isValidMove dir s) with
  | false =>
    by_cases hw : s.won = false
    · rw [applyStuck_of_stuck s hcm hw]
      exact canStepTo_flags d s true false
    · rw [applyStuck_of_won s (by simpa using hw)]
  | true => rw [applyStuck_of_canMove s hcm]

theorem loadLevel_absent (levels : Catalog) (id : Int) (s : GameState)
    (h : levels id = none) : loadLevel levels id s = (s, false) := by
  unfold loadLevel
  rw [h]

theorem loadLevel_present (levels : Catalog) (id : Int) (s : GameState) (L : LevelDef)
    (h : levels id = some L) :
    loadLevel levels id s =
      ({ levelId := id
         board := parseBoard L.boardStr L.width L.height
         width := L.width
         height := L.height
         playerX := -1
         playerY := -1
         started := false
         finished := false
         won := false
         visitedCount := 0
         totalCells := countPlayableCells (parseBoard L.boardStr L.width L.height) },
       true) := by
  unfold loadLevel
  rw [h]

/-! ### The claims -/

/-- C1: for every game state with `started = true` and `finished = false`
and every valid cardinal direction, `move` executes the slide algorithm:
the resulting board, player position and visited count are those of the
spec-side `slideSpec` (starting at the current position, repeatedly step by
the unit vector, entering each in-bounds, unblocked, unvisited target —
updating the position, marking it visited, incrementing the count — and
stopping without entering at the first failing target), and at the final
position the next step in the direction indeed fails the step test, so the
slide stopped exactly at the first failing step. -/
theorem C1_move_executes_slide (s : GameState) (d : String) (dx dy : Int)
    (hs : s.started = true) (hf : s.finished = false)
    (hd : dirDelta d = some (dx, dy)) :
    (executeMove d s).state.board =
      (slideSpec dx dy s.width s.height (countUnvisited s.board + 1)
        s.board s.playerX s.playerY s.visitedCount).1 ∧
    (executeMove d s).state.playerX =
      (slideSpec dx dy s.width s.height (countUnvisited s.board + 1)
        s.board s.playerX s.playerY s.visitedCount).2.1 ∧
    (executeMove d s).state.playerY =
      (slideSpec dx dy s.width s.height (countUnvisited s.board + 1)
        s.board s.playerX s.playerY s.visitedCount).2.2.1 ∧
    (executeMove d s).state.visitedCount =
      (slideSpec dx dy s.width s.height (countUnvisited s.board + 1)
        s.board s.playerX s.playerY s.visitedCount).2.2.2 ∧
    canStepTo d (executeMove d s).state = false := by
  have hA := slideAux_eq_slideSpec dx dy (countUnvisited s.board + 1) s false
  have hstop := slideAux_stepFree dx dy (countUnvisited s.board + 1) s false (by omega)
  rw [executeMove_slid d s dx dy hs hf hd]
  by_cases hm : (slideAux dx dy (countUnvisited s.board + 1) s false).2 = false
  · rw [if_pos hm]
    refine ⟨?_, ?_, ?_, ?_, ?_⟩
    · show (slideAux dx dy (countUnvisited s.board + 1) s false).1.board = _
      rw [hA]
    · show (slideAux dx dy (countUnvisited s.board + 1) s false).1.playerX = _
      rw [hA]
    · show (slideAux dx dy (countUnvisited s.board + 1) s false).1.playerY = _
      rw [hA]
    · show (slideAux dx dy (countUnvisited s.board + 1) s false).1.visitedCount = _
      rw [hA]
    · show canStepTo d (slideAux dx dy (countUnvisited s.board + 1) s false).1 = false
      unfold canStepTo
      rw [hd]
      exact hstop
  · rw [if_neg hm]
    have hW := applyWin_sub (slideAux dx dy (countUnvisited s.board + 1) s false).1
    have hS := applyStuck_sub (applyWin (slideAux dx dy (countUnvisited s.board + 1) s false).1)
    refine ⟨?_, ?_, ?_, ?_, ?_⟩
    · show (applyStuck (applyWin (slideAux dx dy (countUnvisited s.board + 1) s false).1)).board = _
      rw [hS.1, hW.1, hA]
    · show (applyStuck (applyWin
          (slideAux dx dy (countUnvisited s.board + 1) s false).1)).playerX = _
      rw [hS.2.1, hW.2.1, hA]
    · show (applyStuck (applyWin
          (slideAux dx dy (countUnvisited s.board + 1) s false).1)).playerY = _
      rw [hS.2.2.1, hW.2.2.1, hA]
    · show (applyStuck (applyWin
          (slideAux dx dy (countUnvisited s.board + 1) s false).1)).visitedCount = _
      rw [hS.2.2.2.1, hW.2.2.2.1, hA]
    · show canStepTo d (applyStuck (applyWin
          (slideAux dx dy (countUnvisited s.board + 1) s false).1)) = false
      rw [canStepTo_applyStuck, canStepTo_applyWin]
      unfold canStepTo
      rw [hd]
      exact hstop

/-- Witness for C1: the spec's 1×3 scenario, sliding right from `(0, 0)`. -/
theorem C1_move_executes_slide_witness :
    demoStarted.started = true ∧ demoStarted.finished = false ∧
    dirDelta "right" = some (1, 0) ∧
    (executeMove "right" demoStarted).state.playerX =
      (slideSpec 1 0 demoStarted.width demoStarted.height
        (countUnvisited demoStarted.board + 1) demoStarted.board demoStarted.playerX
        demoStarted.playerY demoStarted.visitedCount).2.1 ∧
    (executeMove "right" demoStarted).state.visitedCount =
      (slideSpec 1 0 demoStarted.width demoStarted.height
        (countUnvisited demoStarted.board + 1) demoStarted.board demoStarted.playerX
        demoStarted.playerY demoStarted.visitedCount).2.2.2 ∧
    canStepTo "right" (executeMove "right" demoStarted).state = false :=
  ⟨by decide, by decide, by decide,
   (C1_move_executes_slide demoStarted "right" 1 0 (by decide) (by decide) (by decide)).2.1,
   (C1_move_executes_slide demoStarted "right" 1 0 (by decide) (by decide)
     (by decide)).2.2.2.1,
   (C1_move_executes_slide demoStarted "right" 1 0 (by decide) (by decide)
     (by decide)).2.2.2.2⟩

/-- C4: for every started, unfinished game and every valid direction whose
first step from the player's position fails the step test (out of bounds,
blocked or already visited), `move` fails with `NoMovement`, the whole
state is unchanged, and no state-changed notification is emitted. -/
theorem C4_first_step_fails_no_movement (s : GameState) (d : String) (dx dy : Int)
    (hs : s.started = true) (hf : s.finished = false)
    (hd : dirDelta d = some (dx, dy)) (hstep : canStepTo d s = false) :
    executeMove d s = ⟨s, false, .failure .noMovement⟩ := by
  unfold canStepTo at hstep
  rw [hd] at hstep
  exact executeMove_noMovement d s dx dy hs hf hd hstep

/-- Witness for C4: the spec's 1×3 scenario `".X."` started at `(0, 0)`,
moving right into the wall. -/
theorem C4_first_step_fails_no_movement_witness :
    demoStartedWall.started = true ∧ demoStartedWall.finished = false ∧
    dirDelta "right" = some (1, 0) ∧ canStepTo "right" demoStartedWall = false ∧
    executeMove "right" demoStartedWall = ⟨demoStartedWall, false, .failure .noMovement⟩ :=
  ⟨by decide, by decide, by decide, by decide,
   C4_first_step_fails_no_movement demoStartedWall "right" 1 0 (by decide) (by decide)
     (by decide) (by decide)⟩

/-- C5 counterexample: on a state that is not started, a token that is not
one of the four cardinal directions fails with the not-active error, not
with `InvalidDirection`; so the claim's "for every game state" fails. -/
theorem C5_invalid_direction_counterexample :
    demoLoaded.started = false ∧ dirDelta "diagonal" = none ∧
    (executeMove "diagonal" demoLoaded).res = .failure .notActive ∧
    (executeMove "diagonal" demoLoaded).res ≠ .failure .invalidDirection := by
  decide

/-- C5 (amended): for every game state with `started = true` and
`finished = false`, a call to `move` with a direction token other than the
four cardinal tokens fails with the `InvalidDirection` error (and changes
nothing).  On other states such a call fails with the not-active error
instead, because the active check precedes the direction check. -/
theorem C5_invalid_direction_amended (s : GameState) (d : String)
    (hs : s.started = true) (hf : s.finished = false) (hd : dirDelta d = none) :
    executeMove d s = ⟨s, false, .failure .invalidDirection⟩ :=
  executeMove_invalidDir d s hs hf hd

/-- Witness for the amended C5: a started game refuses the token
`"diagonal"` with `InvalidDirection`. -/
theorem C5_invalid_direction_amended_witness :
    demoStarted.started = true ∧ demoStarted.finished = false ∧
    dirDelta "diagonal" = none ∧
    executeMove "diagonal" demoStarted = ⟨demoStarted, false, .failure .invalidDirection⟩ :=
  ⟨by decide, by decide, by decide,
   C5_invalid_direction_amended demoStarted "diagonal" (by decide) (by decide) (by decide)⟩

/-- C6: `startGame` checks its preconditions in order — already-started
first (regardless of `finished`), then out-of-bounds, then blocked-cell —
each failure leaving the state unchanged (and unnotified), and on success
sets the player position, `started = true`, marks the cell visited and
assigns `visitedCount = 1` absolutely. -/
theorem C6_startGame_spec (s : GameState) (x y : Int) :
    (s.started = true → startGame x y s = ⟨s, false, .failure .alreadyStarted⟩) ∧
    (s.started = false → (x < 0 ∨ (s.width : Int) ≤ x ∨ y < 0 ∨ (s.height : Int) ≤ y) →
      startGame x y s = ⟨s, false, .failure .outOfBounds⟩) ∧
    (s.started = false → ¬(x < 0 ∨ (s.width : Int) ≤ x ∨ y < 0 ∨ (s.height : Int) ≤ y) →
      (getCell s.board x y).blocked = true →
      startGame x y s = ⟨s, false, .failure .blockedCell⟩) ∧
    (s.started = false → ¬(x < 0 ∨ (s.width : Int) ≤ x ∨ y < 0 ∨ (s.height : Int) ≤ y) →
      (getCell s.board x y).blocked = false →
      startGame x y s =
        ⟨{ s with playerX := x
                  playerY := y
                  started := true
                  board := setVisited s.board x y
                  visitedCount := 1 }, true, .success⟩ ∧
      (getCell (setVisited s.board x y) x y).visited = true) := by
  refine ⟨fun h => startGame_already x y s h,
          fun h hb => startGame_oob x y s h hb,
          fun h hb hc => startGame_blocked x y s h hb hc,
          fun h hb hc => ⟨startGame_ok x y s h hb hc, ?_⟩⟩
  exact getCellN_setVisitedN_visited s.board x.toNat y.toNat hc

/-- Witness for C6: the four scenarios on the 1×3 board `".X."`. -/
theorem C6_startGame_spec_witness :
    (demoStartedWall.started = true ∧
      startGame 0 0 demoStartedWall = ⟨demoStartedWall, false, .failure .alreadyStarted⟩) ∧
    (demoLoadedWall.started = false ∧
      startGame 5 0 demoLoadedWall = ⟨demoLoadedWall, false, .failure .outOfBounds⟩) ∧
    (startGame 1 0 demoLoadedWall = ⟨demoLoadedWall, false, .failure .blockedCell⟩) ∧
    (startGame 2 0 demoLoadedWall).res = .success := by
  refine ⟨⟨by decide, (C6_startGame_spec demoStartedWall 0 0).1 (by decide)⟩,
          ⟨by decide, (C6_startGame_spec demoLoadedWall 5 0).2.1 (by decide) (by decide)⟩,
          (C6_startGame_spec demoLoadedWall 1 0).2.2.1 (by decide) (by decide) (by decide),
          ?_⟩
  rw [((C6_startGame_spec demoLoadedWall 2 0).2.2.2 (by decide) (by decide) (by decide)).1]

/-- C7: `loadLevel` fails without touching the state when the id is absent
from the catalog; on success it fully replaces the state — board rebuilt
from the definition with `'X'` characters mapped to blocked-and-visited
cells and all other characters to open unvisited cells, player position
`-1, -1`, all flags false, `visitedCount = 0`, and `totalCells` recomputed
as the count of non-blocked cells. -/
theorem C7_loadLevel_spec (levels : Catalog) (id : Int) (s : GameState) :
    (levels id = none → loadLevel levels id s = (s, false)) ∧
    (∀ L, levels id = some L →
      (loadLevel levels id s).2 = true ∧
      (loadLevel levels id s).1.levelId = id ∧
      (loadLevel levels id s).1.width = L.width ∧
      (loadLevel levels id s).1.height = L.height ∧
      (loadLevel levels id s).1.board = parseBoard L.boardStr L.width L.height ∧
      (∀ x y : Nat, x < L.width → y < L.height →
        getCellN (loadLevel levels id s).1.board x y =
          ⟨boardChar L.boardStr (y * L.width + x) == 'X',
           boardChar L.boardStr (y * L.width + x) == 'X'⟩) ∧
      (loadLevel levels id s).1.playerX = -1 ∧
      (loadLevel levels id s).1.playerY = -1 ∧
      (loadLevel levels id s).1.started = false ∧
      (loadLevel levels id s).1.finished = false ∧
      (loadLevel levels id s).1.won = false ∧
      (loadLevel levels id s).1.visitedCount = 0 ∧
      (loadLevel levels id s).1.totalCells =
        countPlayableCells (loadLevel levels id s).1.board) := by
  refine ⟨fun h => loadLevel_absent levels id s h, fun L h => ?_⟩
  rw [loadLevel_present levels id s L h]
  refine ⟨rfl, rfl, rfl, rfl, rfl, ?_, rfl, rfl, rfl, rfl, rfl, rfl, rfl⟩
  intro x y hx hy
  exact parseBoard_getCellN L.boardStr L.width L.height x y hx hy

/-- Witness for C7: the demo catalog, one absent id and one present id. -/
theorem C7_loadLevel_spec_witness :
    (demoLevels 99 = none ∧ loadLevel demoLevels 99 demoStarted = (demoStarted, false)) ∧
    (demoLevels 1 = some ⟨3, 1, ".X."⟩ ∧
      (loadLevel demoLevels 1 demoStarted).2 = true ∧
      (loadLevel demoLevels 1 demoStarted).1.visitedCount = 0 ∧
      getCellN (loadLevel demoLevels 1 demoStarted).1.board 1 0 = ⟨true, true⟩) :=
  ⟨⟨by decide, (C7_loadLevel_spec demoLevels 99 demoStarted).1 (by decide)⟩,
   ⟨by decide, ((C7_loadLevel_spec demoLevels 1 demoStarted).2 ⟨3, 1, ".X."⟩ (by decide)).1,
    ((C7_loadLevel_spec demoLevels 1 demoStarted).2 ⟨3, 1, ".X."⟩ (by decide)).2.2.2.2.2.2.2.2.2.2.2.1,
    by
      rw [((C7_loadLevel_spec demoLevels 1 demoStarted).2 ⟨3, 1, ".X."⟩
        (by decide)).2.2.2.2.2.1 1 0 (by decide) (by decide)]
      decide⟩⟩

/-- C2: a successful move from a not-yet-won state reaches `won = true` iff
after the move `visitedCount = totalCells`; and the won state is terminal —
once `finished = true` and `won = true`, every call to `move` fails with
the not-active error and mutates nothing (and emits no notification),
until a `loadLevel` or `resetLevel` replaces the state. -/
theorem C2_win_iff_full_coverage (s : GameState) (d : String)
    (hw : s.won = false) (hok : (executeMove d s).res.ok = true) :
    ((executeMove d s).state.won = true ↔
      (executeMove d s).state.visitedCount = (executeMove d s).state.totalCells) ∧
    ((executeMove d s).state.won = true →
      (executeMove d s).state.finished = true ∧
      ∀ d', executeMove d' (executeMove d s).state =
        ⟨(executeMove d s).state, false, .failure .notActive⟩) := by
  obtain ⟨hs, hf, dx, dy, hd, hm, hstate⟩ := executeMove_ok_cases d s hok
  set t := (slideAux dx dy (countUnvisited s.board + 1) s false).1 with ht
  have hconst := slideAux_const dx dy (countUnvisited s.board + 1) s false
  rw [← ht] at hconst
  have htw : t.won = false := by rw [hconst.2.2.2.2.2.1]; exact hw
  by_cases hvc : t.visitedCount = t.totalCells
  · have h2 : applyStuck (applyWin t) = { t with finished := true, won := true } := by
      rw [applyWin_of_eq t hvc]
      exact applyStuck_of_won _ rfl
    rw [hstate, h2]
    exact ⟨by simp [hvc], fun _ => ⟨rfl, fun d' => executeMove_notActive d' _ (Or.inr rfl)⟩⟩
  · have h2 : applyWin t = t := applyWin_of_ne t hvc
    cases hcm : (["up", "down", "left", "right"].any fun dir => isValidMove dir t) with
    | true =>
      have h3 : applyStuck (applyWin t) = t := by
        rw [h2]
        exact applyStuck_of_canMove t hcm
      rw [hstate, h3]
      exact ⟨by simp [htw, hvc], fun hcontra => absurd hcontra (by simp [htw])⟩
    | false =>
      have h3 : applyStuck (applyWin t) = { t with finished := true, won := false } := by
        rw [h2]
        exact applyStuck_of_stuck t hcm htw
      rw [hstate, h3]
      exact ⟨by simp [hvc], fun hcontra => absurd hcontra (by simp)⟩

/-- Witness for C2: sliding right across the 1×3 board `"..."` wins with
full coverage, and the won state refuses a further move unchanged. -/
theorem C2_win_iff_full_coverage_witness :
    demoStarted.won = false ∧ (executeMove "right" demoStarted).res.ok = true ∧
    ((executeMove "right" demoStarted).state.won = true ↔
      (executeMove "right" demoStarted).state.visitedCount =
        (executeMove "right" demoStarted).state.totalCells) ∧
    executeMove "up" (executeMove "right" demoStarted).state =
      ⟨(executeMove "right" demoStarted).state, false, .failure .notActive⟩ :=
  ⟨by decide, by decide,
   (C2_win_iff_full_coverage demoStarted "right" (by decide) (by decide)).1,
   ((C2_win_iff_full_coverage demoStarted "right" (by decide) (by decide)).2
     (by decide)).2 "up"⟩

/-- C3 counterexample: on the 1×3 board `"..."`, the winning slide right
from `(0, 0)` is a successful move after which no direction satisfies
`canStepTo`, yet the resulting state is the won state, not the stuck state
`finished = true, won = false` — so the claim's "if" direction fails. -/
theorem C3_stuck_iff_counterexample :
    (executeMove "right" demoStarted).res.ok = true ∧
    canStepTo "up" (executeMove "right" demoStarted).state = false ∧
    canStepTo "down" (executeMove "right" demoStarted).state = false ∧
    canStepTo "left" (executeMove "right" demoStarted).state = false ∧
    canStepTo "right" (executeMove "right" demoStarted).state = false ∧
    ¬((executeMove "right" demoStarted).state.finished = true ∧
      (executeMove "right" demoStarted).state.won = false) := by
  decide

/-- C3 (amended): a successful move from a not-yet-won state reaches the
stuck state (`finished = true, won = false`) iff at the resulting position
none of the four directions satisfies `canStepTo` AND the move did not
achieve full coverage (`visitedCount ≠ totalCells`; without this extra
conjunct the winning move is a counterexample, since after a win no
direction is steppable either); reaching the stuck state is terminal — no
subsequent `move` succeeds or mutates anything until a load or reset. -/
theorem C3_stuck_iff_amended (s : GameState) (d : String)
    (hw : s.won = false) (hok : (executeMove d s).res.ok = true) :
    (((executeMove d s).state.finished = true ∧ (executeMove d s).state.won = false) ↔
      ((∀ d' ∈ (["up", "down", "left", "right"] : List String),
          canStepTo d' (executeMove d s).state = false) ∧
        (executeMove d s).state.visitedCount ≠ (executeMove d s).state.totalCells)) ∧
    ((executeMove d s).state.finished = true → (executeMove d s).state.won = false →
      ∀ d', executeMove d' (executeMove d s).state =
        ⟨(executeMove d s).state, false, .failure .notActive⟩) := by
  obtain ⟨hs, hf, dx, dy, hd, hm, hstate⟩ := executeMove_ok_cases d s hok
  set t := (slideAux dx dy (countUnvisited s.board + 1) s false).1 with ht
  have hconst := slideAux_const dx dy (countUnvisited s.board + 1) s false
  rw [← ht] at hconst
  have htw : t.won = false := by rw [hconst.2.2.2.2.2.1]; exact hw
  have htf : t.finished = false := by rw [hconst.2.2.2.2.1]; exact hf
  have hts : t.started = true := by rw [hconst.2.2.2.1]; exact hs
  refine ⟨?_, fun hfin _ d' => executeMove_notActive d' _ (Or.inr hfin)⟩
  by_cases hvc : t.visitedCount = t.totalCells
  · have h2 : applyStuck (applyWin t) = { t with finished := true, won := true } := by
      rw [applyWin_of_eq t hvc]
      exact applyStuck_of_won _ rfl
    rw [hstate, h2]
    simp [hvc]
  · have h2 : applyWin t = t := applyWin_of_ne t hvc
    cases hcm : (["up", "down", "left", "right"].any fun dir => isValidMove dir t) with
    | true =>
      have h3 : applyStuck (applyWin t) = t := by
        rw [h2]
        exact applyStuck_of_canMove t hcm
      rw [hstate, h3]
      constructor
      · intro hcontra
        exact absurd hcontra.1 (by simp [htf])
      · intro hcontra
        exfalso
        rw [List.any_eq_true] at hcm
        obtain ⟨dir, hmem, hvalid⟩ := hcm
        rw [isValidMove_eq_canStepTo dir t hts htf] at hvalid
        rw [hcontra.1 dir hmem] at hvalid
        exact absurd hvalid (by simp)
    | false =>
      have h3 : applyStuck (applyWin t) = { t with finished := true, won := false } := by
        rw [h2]
        exact applyStuck_of_stuck t hcm htw
      rw [hstate, h3]
      rw [List.any_eq_false] at hcm
      constructor
      · intro _
        refine ⟨fun d' hmem => ?_, by simpa using hvc⟩
        rw [canStepTo_flags d' t true false, ← isValidMove_eq_canStepTo d' t hts htf]
        simpa using hcm d' hmem
      · intro _
        exact ⟨rfl, rfl⟩

/-- Witness for the amended C3: on the 1×4 board `"..X."` started at
`(1, 0)`, sliding left succeeds and leaves the board incomplete with no
steppable direction — the stuck state, and the equivalence holds there. -/
theorem C3_stuck_iff_amended_witness :
    demoStartedFour.won = false ∧
    (executeMove "left" demoStartedFour).res.ok = true ∧
    (executeMove "left" demoStartedFour).state.finished = true ∧
    (executeMove "left" demoStartedFour).state.won = false ∧
    (((executeMove "left" demoStartedFour).state.finished = true ∧
        (executeMove "left" demoStartedFour).state.won = false) ↔
      ((∀ d' ∈ (["up", "down", "left", "right"] : List String),
          canStepTo d' (executeMove "left" demoStartedFour).state = false) ∧
        (executeMove "left" demoStartedFour).state.visitedCount ≠
          (executeMove "left" demoStartedFour).state.totalCells)) :=
  ⟨by decide, by decide, by decide, by decide,
   (C3_stuck_iff_amended demoStartedFour "left" (by decide) (by decide)).1⟩

theorem startGame_fail_state (x y : Int) (s : GameState)
    (h : (startGame x y s).res.ok = false) : (startGame x y s).state = s := by
  by_cases h1 : s.started = true
  · rw [startGame_already x y s h1]
  · rw [Bool.not_eq_true] at h1
    by_cases h2 : x < 0 ∨ (s.width : Int) ≤ x ∨ y < 0 ∨ (s.height : Int) ≤ y
    · rw [startGame_oob x y s h1 h2]
    · by_cases h3 : (getCell s.board x y).blocked = true
      · rw [startGame_blocked x y s h1 h2 h3]
      · rw [Bool.not_eq_true] at h3
        rw [startGame_ok x y s h1 h2 h3] at h
        exact absurd h (by simp [StartRes.ok])

/-- C8: on any state satisfying the visited-count invariant (`visitedCount`
equals the number of `visited = true` non-blocked cells of the board — a
count that contains the initial start cell — and is `0` before a start), a
successful `startGame` or `move` strictly increases `visitedCount` and
re-establishes that equality; and neither `startGame` nor `move` ever
decreases `visitedCount` (only `loadLevel`/`resetLevel` reset it). -/
theorem C8_visitedCount_invariant (s : GameState)
    (hInv : s.visitedCount = countVisitedPlayable s.board)
    (hStart : s.started = false → s.visitedCount = 0) :
    (∀ x y : Int, (startGame x y s).res.ok = true →
      s.visitedCount < (startGame x y s).state.visitedCount ∧
      (startGame x y s).state.visitedCount =
        countVisitedPlayable (startGame x y s).state.board) ∧
    (∀ d : String, (executeMove d s).res.ok = true →
      s.visitedCount < (executeMove d s).state.visitedCount ∧
      (executeMove d s).state.visitedCount =
        countVisitedPlayable (executeMove d s).state.board) ∧
    (∀ x y : Int, s.visitedCount ≤ (startGame x y s).state.visitedCount) ∧
    (∀ d : String, s.visitedCount ≤ (executeMove d s).state.visitedCount) := by
  refine ⟨?_, ?_, ?_, ?_⟩
  · intro x y hok
    obtain ⟨hs, hb, hc, hstate⟩ := startGame_ok_cases x y s hok
    have h0 : s.visitedCount = 0 := hStart hs
    have hcvp : countVisitedPlayable s.board = 0 := by rw [← hInv]; exact h0
    have hc2 : (getCellN s.board x.toNat y.toNat).blocked = false := hc
    have hv : (getCellN s.board x.toNat y.toNat).visited = false :=
      board_none_visited s.board x.toNat y.toNat hcvp hc2
    rw [hstate]
    constructor
    · show s.visitedCount < 1
      omega
    · show (1 : Nat) = countVisitedPlayable (setVisitedN s.board x.toNat y.toNat)
      rw [countVisitedPlayable_setVisitedN s.board x.toNat y.toNat hc2 hv, hcvp]
  · intro d hok
    obtain ⟨hs, hf, dx, dy, hd, hm, hstate⟩ := executeMove_ok_cases d s hok
    have hstrict := slideAux_strict dx dy (countUnvisited s.board + 1) s hm
    have hcInv := slideAux_countInv dx dy (countUnvisited s.board + 1) s false hInv
    have hW := applyWin_sub (slideAux dx dy (countUnvisited s.board + 1) s false).1
    have hS := applyStuck_sub (applyWin (slideAux dx dy (countUnvisited s.board + 1) s false).1)
    rw [hstate]
    constructor
    · rw [hS.2.2.2.1, hW.2.2.2.1]
      exact hstrict
    · rw [hS.2.2.2.1, hW.2.2.2.1, hS.1, hW.1]
      exact hcInv
  · intro x y
    by_cases h1 : s.started = true
    · rw [startGame_already x y s h1]
    · rw [Bool.not_eq_true] at h1
      by_cases h2 : x < 0 ∨ (s.width : Int) ≤ x ∨ y < 0 ∨ (s.height : Int) ≤ y
      · rw [startGame_oob x y s h1 h2]
      · by_cases h3 : (getCell s.board x y).blocked = true
        · rw [startGame_blocked x y s h1 h2 h3]
        · rw [Bool.not_eq_true] at h3
          rw [startGame_ok x y s h1 h2 h3]
          show s.visitedCount ≤ 1
          rw [hStart h1]
          omega
  · intro d
    by_cases hg : s.started = false ∨ s.finished = true
    · rw [executeMove_notActive d s hg]
    · simp only [not_or, Bool.not_eq_false, Bool.not_eq_true] at hg
      obtain ⟨hs, hf⟩ := hg
      cases hd : dirDelta d with
      | none => rw [executeMove_invalidDir d s hs hf hd]
      | some p =>
        obtain ⟨dx, dy⟩ := p
        have hle := slideAux_visitedCount_le dx dy (countUnvisited s.board + 1) s false
        rw [executeMove_slid d s dx dy hs hf hd]
        by_cases hm2 : (slideAux dx dy (countUnvisited s.board + 1) s false).2 = false
        · rw [if_pos hm2]
          exact hle
        · rw [if_neg hm2]
          have hW := applyWin_sub (slideAux dx dy (countUnvisited s.board + 1) s false).1
          have hS := applyStuck_sub
            (applyWin (slideAux dx dy (countUnvisited s.board + 1) s false).1)
          show s.visitedCount ≤ (applyStuck (applyWin
            (slideAux dx dy (countUnvisited s.board + 1) s false).1)).visitedCount
          rw [hS.2.2.2.1, hW.2.2.2.1]
          exact hle

/-- Witness for C8: the started 1×3 board `"..."`, whose winning move
strictly increases the count to the number of visited open cells. -/
theorem C8_visitedCount_invariant_witness :
    demoStarted.visitedCount = countVisitedPlayable demoStarted.board ∧
    (demoStarted.started = false → demoStarted.visitedCount = 0) ∧
    ((executeMove "right" demoStarted).res.ok = true ∧
      demoStarted.visitedCount < (executeMove "right" demoStarted).state.visitedCount ∧
      (executeMove "right" demoStarted).state.visitedCount =
        countVisitedPlayable (executeMove "right" demoStarted).state.board) ∧
    demoStarted.visitedCount ≤ (startGame 0 0 demoStarted).state.visitedCount :=
  ⟨by decide, by decide,
   ⟨by decide,
    (C8_visitedCount_invariant demoStarted (by decide) (by decide)).2.1 "right" (by decide)⟩,
   (C8_visitedCount_invariant demoStarted (by decide) (by decide)).2.2.1 0 0⟩

/-- C9: `resetLevel` is idempotent — when the current level id is in the
catalog, a second reset changes nothing relative to the first, and the
reset snapshot keeps the level id and dimensions, unsets the player,
clears all flags and the count, and leaves exactly the blocked cells
visited. -/
theorem C9_resetLevel_idempotent (levels : Catalog) (s : GameState) (L : LevelDef)
    (hL : levels s.levelId = some L) :
    resetLevel levels (resetLevel levels s) = resetLevel levels s ∧
    (resetLevel levels s).levelId = s.levelId ∧
    (resetLevel levels s).width = L.width ∧
    (resetLevel levels s).height = L.height ∧
    (resetLevel levels s).playerX = -1 ∧
    (resetLevel levels s).playerY = -1 ∧
    (resetLevel levels s).started = false ∧
    (resetLevel levels s).finished = false ∧
    (resetLevel levels s).won = false ∧
    (resetLevel levels s).visitedCount = 0 ∧
    (∀ x y : Nat, (getCellN (resetLevel levels s).board x y).visited =
      (getCellN (resetLevel levels s).board x y).blocked) := by
  have hrec : ∀ u : GameState, u.levelId = s.levelId →
      resetLevel levels u =
        { levelId := s.levelId
          board := parseBoard L.boardStr L.width L.height
          width := L.width
          height := L.height
          playerX := -1
          playerY := -1
          started := false
          finished := false
          won := false
          visitedCount := 0
          totalCells := countPlayableCells (parseBoard L.boardStr L.width L.height) } := by
    intro u hu
    unfold resetLevel
    rw [hu, loadLevel_present levels s.levelId u L hL]
  have h1 := hrec s rfl
  rw [h1]
  refine ⟨hrec _ rfl, rfl, rfl, rfl, rfl, rfl, rfl, rfl, rfl, rfl, ?_⟩
  intro x y
  exact parseBoard_visited_eq_blocked L.boardStr L.width L.height x y

/-- Witness for C9 on the loaded-and-started 1×3 board. -/
theorem C9_resetLevel_idempotent_witness :
    demoLevels demoStarted.levelId = some ⟨3, 1, "..."⟩ ∧
    resetLevel demoLevels (resetLevel demoLevels demoStarted) =
      resetLevel demoLevels demoStarted ∧
    (resetLevel demoLevels demoStarted).visitedCount = 0 ∧
    (resetLevel demoLevels demoStarted).playerX = -1 :=
  ⟨by decide,
   (C9_resetLevel_idempotent demoLevels demoStarted ⟨3, 1, "..."⟩ (by decide)).1,
   (C9_resetLevel_idempotent demoLevels demoStarted ⟨3, 1, "..."⟩
     (by decide)).2.2.2.2.2.2.2.2.2.1,
   (C9_resetLevel_idempotent demoLevels demoStarted ⟨3, 1, "..."⟩ (by decide)).2.2.2.2.1⟩

theorem allVisited_stepFree (s : GameState)
    (h : countVisitedPlayable s.board = countPlayableCells s.board) :
    ∀ dx dy : Int, stepFree s dx dy = false := by
  intro dx dy
  rw [stepFree_eq_false_iff]
  by_cases hb : s.playerX + dx < 0 ∨ (s.width : Int) ≤ s.playerX + dx ∨
      s.playerY + dy < 0 ∨ (s.height : Int) ≤ s.playerY + dy
  · exact Or.inl hb
  · refine Or.inr ?_
    by_cases hbl : (getCell s.board (s.playerX + dx) (s.playerY + dy)).blocked = true
    · exact Or.inl hbl
    · rw [Bool.not_eq_true] at hbl
      exact Or.inr (board_all_visited s.board _ _ h hbl)

theorem oneCellInv_move (s : GameState) (hI : OneCellInv s) (d : String) :
    (executeMove d s).state = s ∧ (executeMove d s).res.ok = false ∧
    (executeMove d s).notified = false ∧
    (s.started = true → dirDelta d ≠ none →
      (executeMove d s).res = .failure .noMovement) := by
  obtain ⟨htc, hcp, hInv, hw, hf, hvc0, hvc1⟩ := hI
  by_cases hs : s.started = true
  · have hall : countVisitedPlayable s.board = countPlayableCells s.board := by
      rw [← hInv, hcp]
      exact hvc1 hs
    cases hd : dirDelta d with
    | none =>
      rw [executeMove_invalidDir d s hs hf hd]
      exact ⟨rfl, rfl, rfl, fun _ hne => absurd rfl hne⟩
    | some p =>
      obtain ⟨dx, dy⟩ := p
      rw [executeMove_noMovement d s dx dy hs hf hd (allVisited_stepFree s hall dx dy)]
      exact ⟨rfl, rfl, rfl, fun _ _ => rfl⟩
  · rw [Bool.not_eq_true] at hs
    rw [executeMove_notActive d s (Or.inl hs)]
    exact ⟨rfl, rfl, rfl, fun hcon => absurd hcon (by simp [hs])⟩

theorem oneCellInv_start (s : GameState) (hI : OneCellInv s) (x y : Int) :
    OneCellInv (startGame x y s).state := by
  obtain ⟨htc, hcp, hInv, hw, hf, hvc0, hvc1⟩ := hI
  by_cases hok : (startGame x y s).res.ok = true
  · obtain ⟨hs, hb, hc, hstate⟩ := startGame_ok_cases x y s hok
    have h0 : s.visitedCount = 0 := hvc0 hs
    have hcvp : countVisitedPlayable s.board = 0 := by rw [← hInv]; exact h0
    have hc2 : (getCellN s.board x.toNat y.toNat).blocked = false := hc
    have hv : (getCellN s.board x.toNat y.toNat).visited = false :=
      board_none_visited s.board x.toNat y.toNat hcvp hc2
    rw [hstate]
    refine ⟨htc, ?_, ?_, hw, hf, ?_, fun _ => rfl⟩
    · show countPlayableCells (setVisitedN s.board x.toNat y.toNat) = 1
      rw [countPlayableCells_setVisitedN]
      exact hcp
    · show (1 : Nat) = countVisitedPlayable (setVisitedN s.board x.toNat y.toNat)
      rw [countVisitedPlayable_setVisitedN s.board x.toNat y.toNat hc2 hv, hcvp]
    · intro hcon
      exact absurd hcon (by simp)
  · rw [Bool.not_eq_true] at hok
    rw [startGame_fail_state x y s hok]
    exact ⟨htc, hcp, hInv, hw, hf, hvc0, hvc1⟩

theorem oneCellInv_op (s : GameState) (hI : OneCellInv s) (op : Op) :
    OneCellInv (applyOp s op) := by
  cases op with
  | start x y => exact oneCellInv_start s hI x y
  | move d =>
    show OneCellInv (executeMove d s).state
    rw [(oneCellInv_move s hI d).1]
    exact hI

theorem oneCellInv_ops (ops : List Op) :
    ∀ s : GameState, OneCellInv s → OneCellInv (applyOps s ops) := by
  induction ops with
  | nil => intro s hI; exact hI
  | cons op rest ih =>
    intro s hI
    exact ih (applyOp s op) (oneCellInv_op s hI op)

/-- C10: the win condition is only evaluated inside `move` after at least
one step, never by `startGame` — on a loaded level with exactly one
playable cell, a successful `startGame` reaches
`visitedCount = 1 = totalCells` yet leaves `finished = false` and
`won = false`; every later `move` fails without mutation or notification
(with `NoMovement` whenever the token is a cardinal direction), and no
sequence of start/move requests ever reaches `won = true`. -/
theorem C10_single_cell_no_win (levels : Catalog) (sPrev : GameState) (id : Int)
    (L : LevelDef) (s0 : GameState) (hL : levels id = some L)
    (hs0 : s0 = (loadLevel levels id sPrev).1)
    (h1 : countPlayableCells (parseBoard L.boardStr L.width L.height) = 1) :
    (∀ x y : Int, (startGame x y s0).res.ok = true →
      (startGame x y s0).state.visitedCount = 1 ∧
      (startGame x y s0).state.totalCells = 1 ∧
      (startGame x y s0).state.finished = false ∧
      (startGame x y s0).state.won = false ∧
      (∀ d : String,
        (executeMove d (startGame x y s0).state).state = (startGame x y s0).state ∧
        (executeMove d (startGame x y s0).state).res.ok = false ∧
        (executeMove d (startGame x y s0).state).notified = false) ∧
      (∀ d : String, dirDelta d ≠ none →
        (executeMove d (startGame x y s0).state).res = .failure .noMovement)) ∧
    (∀ ops : List Op, (applyOps s0 ops).won = false) := by
  have hI0 : OneCellInv s0 := by
    rw [hs0, loadLevel_present levels id sPrev L hL]
    refine ⟨h1, h1, ?_, rfl, rfl, fun _ => rfl, fun hcon => absurd hcon (by simp)⟩
    show (0 : Nat) = countVisitedPlayable (parseBoard L.boardStr L.width L.height)
    rw [countVisitedPlayable_parseBoard]
  constructor
  · intro x y hok
    have hI1 : OneCellInv (startGame x y s0).state := oneCellInv_start s0 hI0 x y
    obtain ⟨htc, hcp, hInv, hw, hf, hvc0, hone⟩ := hI1
    obtain ⟨hsS, hbS, hcS, hstateS⟩ := startGame_ok_cases x y s0 hok
    have hstarted : (startGame x y s0).state.started = true := by rw [hstateS]
    refine ⟨hone hstarted, htc, hf, hw, ?_, ?_⟩
    · intro d
      have hmv := oneCellInv_move (startGame x y s0).state
        ⟨htc, hcp, hInv, hw, hf, hvc0, hone⟩ d
      exact ⟨hmv.1, hmv.2.1, hmv.2.2.1⟩
    · intro d hd
      exact (oneCellInv_move (startGame x y s0).state
        ⟨htc, hcp, hInv, hw, hf, hvc0, hone⟩ d).2.2.2 hstarted hd
  · intro ops
    exact (oneCellInv_ops ops s0 hI0).2.2.2.1

/-- Witness for C10: the 1×1 board `"."`; starting fills the board without
winning, and a start-then-move request sequence never wins. -/
theorem C10_single_cell_no_win_witness :
    demoLevels 2 = some ⟨1, 1, "."⟩ ∧
    demoTiny = (loadLevel demoLevels 2 gameState0).1 ∧
    countPlayableCells (parseBoard "." 1 1) = 1 ∧
    ((startGame 0 0 demoTiny).res.ok = true ∧
      (startGame 0 0 demoTiny).state.visitedCount = 1 ∧
      (startGame 0 0 demoTiny).state.totalCells = 1 ∧
      (startGame 0 0 demoTiny).state.finished = false ∧
      (startGame 0 0 demoTiny).state.won = false) ∧
    (applyOps demoTiny [Op.start 0 0, Op.move "right", Op.move "up"]).won = false :=
  ⟨by decide, rfl, by decide,
   ⟨by decide,
    ((C10_single_cell_no_win demoLevels gameState0 2 ⟨1, 1, "."⟩ demoTiny (by decide) rfl
      (by decide)).1 0 0 (by decide)).1,
    ((C10_single_cell_no_win demoLevels gameState0 2 ⟨1, 1, "."⟩ demoTiny (by decide) rfl
      (by decide)).1 0 0 (by decide)).2.1,
    ((C10_single_cell_no_win demoLevels gameState0 2 ⟨1, 1, "."⟩ demoTiny (by decide) rfl
      (by decide)).1 0 0 (by decide)).2.2.1,
    ((C10_single_cell_no_win demoLevels gameState0 2 ⟨1, 1, "."⟩ demoTiny (by decide) rfl
      (by decide)).1 0 0 (by decide)).2.2.2.1⟩,
   (C10_single_cell_no_win demoLevels gameState0 2 ⟨1, 1, "."⟩ demoTiny (by decide) rfl
     (by decide)).2 [Op.start 0 0, Op.move "right", Op.move "up"]⟩

end MortalCoil
